import Mathlib

/-!
Shallow embedding of the ndd repository (src/ndd/base.py, src/ndd/data.py,
src/ndd/nsb.py) and proofs about the frozen claims.

Conventions of the embedding:
* numpy float64 scalars are modelled as exact rationals; numpy integer
  arrays as lists of integers.  IEEE special values are modelled where the
  source behaviour depends on them: a comparison with NaN or -inf is false,
  which is captured by the exact side conditions written in each branch.
* exceptions are modelled with the Except monad; the Err inductive mirrors
  the exception taxonomy of ndd/exceptions.py (plus the numpy ValueError
  and TypeError that can escape uncaught).
* stateful objects (estimator instances, the DataArray cache) are modelled
  by explicit state passing.
* the abstract estimator core (EntropyEstimator.estimator, implemented in
  ndd/estimators.py) is a function parameter of type Core.
-/

namespace Ndd

/-- Exception taxonomy: AlphaError, CountsError, CardinalityError, AxisError,
HistogramError, NumericError from ndd/exceptions.py, plus the raw numpy
ValueError / TypeError that the source can let escape. -/
inductive Err where
  | alpha | counts | cardinality | axisErr | histErr | numeric | valueErr | typeErr
  deriving DecidableEq, Repr

instance instDecEqExcept {ε α : Type} [DecidableEq ε] [DecidableEq α] :
    DecidableEq (Except ε α) := fun x y =>
  match x, y with
  | .ok a, .ok b =>
    if h : a = b then .isTrue (h ▸ rfl)
    else .isFalse (fun he => h (Except.ok.inj he))
  | .error a, .error b =>
    if h : a = b then .isTrue (h ▸ rfl)
    else .isFalse (fun he => h (Except.error.inj he))
  | .ok _, .error _ => .isFalse (fun he => Except.noConfusion he)
  | .error _, .ok _ => .isFalse (fun he => Except.noConfusion he)

/-- A numpy float64 value is a whole number (float.is_integer). -/
def ratIsInt (q : ℚ) : Bool := q.den == 1

/-- Input to check_k / the ks arguments: a scalar or a 1-D sequence
(after conversion with numpy.float64). -/
inductive KInput where
  | scalar (q : ℚ)
  | seq (l : List ℚ)
  deriving DecidableEq, Repr

/-- base.py, EntropyEstimator.check_pk: flatten to floats, raise CountsError
on non-integer values, then on negative values, else return the integer
counts. -/
def check_pk (l : List ℚ) : Except Err (List ℤ) :=
  if l.any (fun x => !(ratIsInt x)) then .error .counts
  else if l.any (fun x => x < 0) then .error .counts
  else .ok (l.map (·.num))

/-- base.py, EntropyEstimator.check_k: None passes through; a scalar is
rejected when numpy.log(k) > 150*log(2) (for exact values this is k > 2^150;
for k <= 0 the float comparison against NaN or -inf is false, so the test
passes) or when it is not a whole number; a 1-D sequence is rejected when
the sum of elementwise logs exceeds the bound (a real-number condition that
holds exactly when all elements are positive and their product exceeds
2^150) and is otherwise collapsed to the product of its elements, which
must be a whole number. -/
def check_k : Option KInput → Except Err (Option ℚ)
  | none => .ok none
  | some (.scalar q) =>
      if (2 : ℚ) ^ 150 < q then .error .cardinality
      else if !(ratIsInt q) then .error .cardinality
      else .ok (some q)
  | some (.seq l) =>
      if (∀ x ∈ l, 0 < x) ∧ (2 : ℚ) ^ 150 < l.prod then .error .cardinality
      else if !(ratIsInt l.prod) then .error .cardinality
      else .ok (some l.prod)

/-- A float64 value that may be NaN (needed for check_alpha and the NaN
guard of the entry points). -/
inductive NFloat where
  | nan
  | num (q : ℚ)
  deriving DecidableEq, Repr

/-- IEEE less-than against zero: false when the value is NaN. -/
def nfLtZero : NFloat → Bool
  | .nan => false
  | .num q => decide (q < 0)

/-- Argument of check_alpha: absent, not convertible to float64, or a
float64 value (possibly NaN: numpy.float64(float("nan")) succeeds). -/
inductive AlphaInput where
  | absent
  | nonnum
  | val (v : NFloat)
  deriving DecidableEq, Repr

/-- base.py, EntropyEstimator.check_alpha: AlphaError when the argument is
None, not convertible to float64, or negative; the converted value
otherwise. -/
def check_alpha : AlphaInput → Except Err NFloat
  | .absent => .error .alpha
  | .nonnum => .error .alpha
  | .val v => if nfLtZero v then .error .alpha else .ok v

/-- nsb.py, entropy / jensen_shannon_divergence post-computation guard:
NumericError when the fitted estimate is NaN. -/
def nanGuard : NFloat → Except Err ℚ
  | .nan => .error .numeric
  | .num q => .ok q

/-- Result of a concrete estimator algorithm: a bare estimate or an
(estimate, uncertainty) pair (base.py unpacks with a TypeError fallback). -/
abbrev EstRes := ℚ ⊕ ℚ × ℚ

/-- The abstract estimator core, base.py EntropyEstimator.estimator:
receives the validated counts and the validated cardinality (None when k
was omitted). -/
abbrev Core := List ℤ → Option ℚ → EstRes

/-- Estimator instance state: estimate_ and err_ attributes. -/
structure EstState where
  estimate_ : Option ℚ
  err_ : Option ℚ
  deriving DecidableEq, Repr

/-- base.py fit result storing: a pair assigns both attributes, a scalar
assigns only estimate_ (the tuple unpacking raises TypeError before any
assignment, so err_ keeps its previous value). -/
def storeRes (st : EstState) (r : EstRes) : EstState :=
  match r with
  | .inl v => ⟨some v, st.err_⟩
  | .inr (v, e) => ⟨some v, some e⟩

/-- base.py, EntropyEstimator.fit: check_pk, then check_k, then invoke the
core and store the result.  A raised validation error propagates and leaves
the instance state unchanged, modelled by returning the old state together
with the error. -/
def fitSt (core : Core) (st : EstState) (pk : List ℚ) (k : Option KInput) :
    EstState × Option Err :=
  match check_pk pk with
  | .error e => (st, some e)
  | .ok pk' =>
    match check_k k with
    | .error e => (st, some e)
    | .ok k' => (storeRes st (core pk' k'), none)

/-- Argument of MultiPMFEstimator.check_pk after numpy.float64 conversion:
a 1-D array or a 2-D (rectangular) array. -/
inductive MultiPk where
  | oneD (l : List ℚ)
  | twoD (rows : List (List ℚ))
  deriving DecidableEq, Repr

/-- base.py, MultiPMFEstimator.check_pk: CountsError when the rank is not
exactly 2 (raised first), on non-integer values, then on negative values. -/
def check_pk_multi : MultiPk → Except Err (List (List ℤ)) :=
  fun a =>
    match a with
    | .oneD _ => .error .counts
    | .twoD rows =>
      if rows.any (fun r => r.any (fun x => !(ratIsInt x))) then .error .counts
      else if rows.any (fun r => r.any (fun x => x < 0)) then .error .counts
      else .ok (rows.map (fun r => r.map (·.num)))

/-- Core of a multi-distribution estimator (MultiPMFEstimator.estimator). -/
abbrev MultiCore := List (List ℤ) → Option ℚ → EstRes

/-- base.py, MultiPMFEstimator.fit: same structure as EntropyEstimator.fit
with the 2-D counts validator. -/
def fitStM (core : MultiCore) (st : EstState) (pk : MultiPk) (k : Option KInput) :
    EstState × Option Err :=
  match check_pk_multi pk with
  | .error e => (st, some e)
  | .ok pk' =>
    match check_k k with
    | .error e => (st, some e)
    | .ok k' => (storeRes st (core pk' k'), none)

/-! ### numpy ndarray layer (the array collaborators used by nsb.py)

A C-contiguous ndarray is a shape together with its row-major flat data.
swapaxes, reshape and 2-D transposition are modelled through the row-major
index arithmetic. -/

/-- A numpy ndarray: shape and row-major (C-order) flat data. -/
structure Tensor where
  shape : List ℕ
  data : List ℤ
  deriving DecidableEq, Repr

/-- Row-major flat index of a multi-index. -/
def flatIndex : List ℕ → List ℕ → ℕ
  | _ :: ds, i :: is => i * ds.prod + flatIndex ds is
  | _, _ => 0

/-- Inverse of flatIndex: the multi-index of flat position k in shape s. -/
def unflatten : List ℕ → ℕ → List ℕ
  | [], _ => []
  | _ :: ds, k => (k / ds.prod) :: unflatten ds (k % ds.prod)

/-- Element of a tensor at a multi-index (0 outside the data). -/
def Tensor.get (t : Tensor) (idx : List ℕ) : ℤ :=
  t.data.getD (flatIndex t.shape idx) 0

/-- Swap positions 0 and a of a list (used for both shapes and indices). -/
def swapL (l : List ℕ) (a : ℕ) : List ℕ :=
  (l.set 0 (l.getD a 0)).set a (l.getD 0 0)

/-- numpy.swapaxes(t, a, 0): the element at a multi-index of the result is
the element of t at the index with positions 0 and a swapped; the data is
materialised in C order of the new shape. -/
def swapaxes (t : Tensor) (a : ℕ) : Tensor :=
  let s' := swapL t.shape a
  ⟨s', (List.range s'.prod).map (fun k => t.get (swapL (unflatten s' k) a))⟩

/-- 2-D transposition (ar.T on a 2-D array), materialised in C order. -/
def transpose2 (t : Tensor) : Tensor :=
  let m := t.shape.getD 0 0
  let n := t.shape.getD 1 0
  ⟨[n, m], (List.range (n * m)).map (fun k => t.get [k % m, k / m])⟩

/-- ar.reshape(n, -1) with n = ar.shape[0]: same C-order data, 2-D shape. -/
def reshapeRow (t : Tensor) : Tensor :=
  ⟨[t.shape.headD 0, t.shape.tail.prod], t.data⟩

/-- numpy axis normalisation (negative axes count from the end). -/
def normAxis (a : ℤ) (nd : ℕ) : ℕ :=
  (if a < 0 then a + nd else a).toNat

/-- nsb.py, as_data_array, with the axis argument as passed in the source
(an int or None; comparisons with None are false and numpy.swapaxes with a
None axis raises an uncaught TypeError):
rank-1 input is reshaped to 1 x n; rank-2 input is transposed when
axis == 0; rank-N input (N > 2) is brought to sample-major order with
swapaxes when axis is not 0 (AxisError when numpy.swapaxes rejects the
axis), flattened over the remaining axes and transposed. -/
def asDataArrayO (t : Tensor) (axis : Option ℤ) : Except Err Tensor :=
  let nd := t.shape.length
  if nd = 1 then .ok ⟨[1, t.shape.headD 0], t.data⟩
  else if nd = 2 then
    if axis = some 0 then .ok (transpose2 t) else .ok t
  else if 2 < nd then
    if axis = some 0 then .ok (transpose2 (reshapeRow t))
    else
      match axis with
      | none => .error .typeErr
      | some a =>
        if -(nd : ℤ) ≤ a ∧ a < (nd : ℤ) then
          .ok (transpose2 (reshapeRow (swapaxes t (normAxis a nd))))
        else .error .axisErr
  else .ok t

/-- as_data_array with an integer axis (the usual call). -/
def as_data_array (t : Tensor) (a : ℤ) : Except Err Tensor :=
  asDataArrayO t (some a)

/-- View a 2-D tensor as its list of rows. -/
def toMatrix (t : Tensor) : List (List ℤ) :=
  (List.range (t.shape.getD 0 0)).map
    (fun i => (List.range (t.shape.getD 1 0)).map (fun j => t.get [i, j]))

/-! ### histogramming (nsb.py) -/

/-- Number of samples of a p-by-n data array given as rows. -/
def numSamples (rows : List (List ℤ)) : ℕ := (rows.headD []).length

/-- The columns (joint samples) of a p-by-n data array. -/
def columnsOf (rows : List (List ℤ)) : List (List ℤ) :=
  (List.range (numSamples rows)).map (fun j => rows.map (fun row => row.getD j 0))

/-- numpy.unique(data, return_counts=True, axis=1): the multiset of counts
of the distinct columns (one count per distinct joint value). -/
def jointCounts (rows : List (List ℤ)) : List ℤ :=
  let cols := columnsOf rows
  cols.dedup.map (fun c => (cols.count c : ℤ))

/-- itertools.combinations: all size-r combinations of a list, in the
canonical (lexicographic over positions) order. -/
def comb : ℕ → List α → List (List α)
  | 0, _ => [[]]
  | _ + 1, [] => []
  | r + 1, x :: xs => (comb r xs).map (x :: ·) ++ comb (r + 1) xs

/-- The per-variable observed alphabet sizes of a data array
([len(numpy.unique(v)) for v in ar]). -/
def perVarKs (rows : List (List ℤ)) : List ℚ :=
  rows.map (fun v => ((v.dedup.length : ℕ) : ℚ))

/-- nsb.py, histogram, after the as_data_array step, on the p-by-n rows:
HistogramError when r exceeds p; the joint bin counts when r = 0; otherwise
one joint bin-count vector per size-r combination of variables (rows), in
the canonical combination order. -/
def histogramRows (rows : List (List ℤ)) (r : ℕ) :
    Except Err (List ℤ ⊕ List (List ℤ)) :=
  let p := rows.length
  if r > p then .error .histErr
  else if r = 0 then .ok (.inl (jointCounts rows))
  else .ok (.inr ((comb r rows).map jointCounts))

/-- nsb.py, histogram(data, axis, r): reshape with as_data_array, then
count. -/
def histogram (t : Tensor) (axis : ℤ) (r : ℕ) :
    Except Err (List ℤ ⊕ List (List ℤ)) := do
  let d ← as_data_array t axis
  histogramRows (toMatrix d) r

/-! ### entry points of nsb.py -/

/-- Estimate of an EstRes (estimator.estimate_ after fit). -/
def resEstimate : EstRes → ℚ
  | .inl v => v
  | .inr (v, _) => v

/-- Calling a fitted estimator: Entropy(...)(pk, k) = fit(pk, k).estimate_,
i.e. check_pk, check_k, then the core.  Raised validation errors
propagate. -/
def estimatorCall (f : Core) (pk : List ℚ) (k : Option KInput) : Except Err ℚ := do
  let pk' ← check_pk pk
  let k' ← check_k k
  .ok (resEstimate (f pk' k'))

/-- nsb.py, entropy(pk, k): fit the Entropy estimator and return the
estimate.  The post-fit NaN guard (NumericError) cannot fire in the exact
rational model, so this reduces to the estimator call. -/
def entropyCall (f : Core) (pk : List ℚ) (k : Option KInput) : Except Err ℚ :=
  estimatorCall f pk k

/-- nsb.py, from_data, after the as_data_array step, on the p-by-n rows:
default ks is the per-variable observed alphabet sizes; a supplied sequence
must have length p; for r = 0 the estimator is called on the joint counts
with k = ks (a 1-D value that check_k collapses to its product); for r > 0
a scalar ks raises CardinalityError, and otherwise one estimate per size-r
variable combination is produced, pairing each combination of counts with
the product of the matching combination of cardinalities.  (The generators
of the source are modelled as eagerly evaluated lists; histogram is invoked
before the generator is built, so its HistogramError for r > p is eager in
the source as well.) -/
def fromDataRows (f : Core) (rows : List (List ℤ)) (ks : Option KInput) (r : ℕ) :
    Except Err (ℚ ⊕ List ℚ) := do
  let p := rows.length
  let ksv ←
    (match ks with
    | none => Except.ok (KInput.seq (perVarKs rows))
    | some (.scalar q) => Except.ok (KInput.scalar q)
    | some (.seq l) =>
        if l.length ≠ p then Except.error Err.cardinality
        else Except.ok (KInput.seq l))
  if r = 0 then do
    -- counts = histogram(ar, axis=1); on a p-by-n array this is the joint
    -- bin-count vector (lemma histogramRows_zero below)
    let est ← estimatorCall f ((jointCounts rows).map (fun z => (z : ℚ))) (some ksv)
    .ok (.inl est)
  else
    match ksv with
    | .scalar _ => .error .cardinality
    | .seq l => do
      let hr ← histogramRows rows r
      match hr with
      | .inl _ => .error .valueErr   -- unreachable: r > 0 yields the combination form
      | .inr ccs => do
        let kks := (comb r l).map List.prod
        let ests ← (ccs.zip kks).mapM
          (fun ck => estimatorCall f (ck.1.map (fun z => (z : ℚ))) (some (.scalar ck.2)))
        .ok (.inr ests)

/-- nsb.py, from_data(ar, ks, axis, r): reshape (also when axis is None:
the source tests `ar is not None`, not the axis), then estimate. -/
def from_data (f : Core) (t : Tensor) (ks : Option KInput) (axis : Option ℤ)
    (r : ℕ) : Except Err (ℚ ⊕ List ℚ) := do
  let d ← asDataArrayO t axis
  fromDataRows f (toMatrix d) ks r

/-- nsb.py, the inner mmi(X, k) closure of mutual_information: the
inclusion-exclusion sum -sum_r (-1)^r * sum(from_data(X, ks=k, r=r,
axis=None)).  The captured p is the outer variable count.  as_data_array
with axis=None leaves a 2-D array unchanged, so the X argument is passed
as rows directly (lemma asDataArrayO_none_rank2 below). -/
def mmi (f : Core) (rows : List (List ℤ)) (p : ℕ) (k : KInput) : Except Err ℚ := do
  let parts ← (List.range p).mapM (fun i => do
    let fr ← fromDataRows f rows (some k) (i + 1)
    match fr with
    | .inr l => Except.ok ((-1 : ℚ) ^ (i + 1) * l.sum)
    | .inl v => Except.ok ((-1 : ℚ) ^ (i + 1) * v))
  .ok (-(parts.sum))

/-- nsb.py, mutual_information(ar, ks, axis, r).  The ks validation block
is transcribed as in the source: a sequence whose length differs from p
raises CardinalityError("k should have len p"), and a sequence whose
length equals p falls into the else branch and raises
CardinalityError("ks cant be a scalar"); a scalar ks passes the block.
For r > 0 with a scalar ks, itertools.combinations over a 0-d array raises
an uncaught TypeError. -/
def mutual_information (f : Core) (t : Tensor) (ks : Option KInput)
    (axis : Option ℤ) (r : ℕ) : Except Err (ℚ ⊕ List ℚ) := do
  let d ← asDataArrayO t axis
  let rows := toMatrix d
  let p := rows.length
  let ksv ←
    (match ks with
    | none => Except.ok (KInput.seq (perVarKs rows))
    | some (.scalar q) => Except.ok (KInput.scalar q)
    | some (.seq l) =>
        if l.length ≠ p then Except.error Err.cardinality
        else Except.error Err.cardinality)
  if r = 0 then (mmi f rows p ksv).map .inl
  else
    match ksv with
    | .scalar _ => .error .typeErr
    | .seq l => do
      let kks := (comb r l).map List.prod
      let ests ← ((comb r rows).zip kks).mapM (fun dk => mmi f dk.1 p (.scalar dk.2))
      .ok (.inr ests)

/-! ### DataArray (data.py) -/

/-- Truth value of `not self._ks` where _ks is None or a cached numpy
integer array: None is falsy; an empty array is falsy; a one-element array
has the truth value of its element; a longer array raises
ValueError ("truth value of an array with more than one element is
ambiguous"). -/
def notKs : Option (List ℕ) → Except Err Bool
  | none => .ok true
  | some [] => .ok true
  | some [x] => .ok (x == 0)
  | some (_ :: _ :: _) => .error .valueErr

/-- data.py, DataArray.ks property: recompute when `not self._ks` is
truthy, cache and return; otherwise return the cached array.  The state is
the _ks attribute. -/
def ksGet (rows : List (List ℤ)) (st : Option (List ℕ)) :
    Except Err (List ℕ × Option (List ℕ)) := do
  let b ← notKs st
  if b then
    let v := rows.map (fun r => r.dedup.length)
    .ok (v, some v)
  else
    .ok (st.getD [], st)

/-! ### spec-modelled estimator core -/

/-- An entropy-like rational functional of the counts (1 minus the
collision probability), used by the spec-modelled core below. -/
def surrogateH (pk : List ℤ) : ℚ :=
  let n : ℚ := ((pk.sum : ℤ) : ℚ)
  if n = 0 then 0 else 1 - (pk.map (fun c => ((c : ℚ) / n) ^ 2)).sum

/-- Modelled from the spec: the concrete Bayesian (NSB-style) estimator
core, class Entropy of ndd/estimators.py, which is not under src/.  The
spec excludes its closed-form numerics as a non-goal, but requires a
deterministic core returning an (estimate, uncertainty) pair, defaulting an
absent cardinality to the number of observed bins, and accounting for the
unobserved support (the k - observed_bins unseen bins).  This surrogate
respects those constraints: it is deterministic, returns a pair, and its
value moves with the number of unseen bins. -/
def nsbEstimate : Core := fun pk k =>
  let kk := k.getD ((pk.length : ℕ) : ℚ)
  .inr (surrogateH pk + (kk - ((pk.length : ℕ) : ℚ)) / (((pk.sum : ℤ) : ℚ) + 1), 0)

/-! ### helper lemmas -/

/-- getD of a tabulated list evaluates the tabulating function. -/
lemma getD_range_map (f : ℕ → ℤ) {N k : ℕ} (h : k < N) :
    ((List.range N).map f).getD k 0 = f k := by
  rw [List.getD_eq_getElem?_getD, List.getElem?_map, List.getElem?_range h]
  rfl

/-- Splitting a row-major index into its leading coordinate and remainder. -/
lemma unflatten_decomp (n q v s : ℕ) (ds : List ℕ) (hq : ds.prod = q)
    (hv : v < q) : unflatten (n :: ds) (s * q + v) = s :: unflatten ds v := by
  have hq0 : 0 < q := by omega
  have e1 : s * q + v = v + q * s := by ring
  have hdiv : (s * q + v) / q = s := by
    rw [e1, Nat.add_mul_div_left _ _ hq0, Nat.div_eq_of_lt hv, Nat.zero_add]
  have hmod : (s * q + v) % q = v := by
    rw [e1, Nat.add_mul_mod_self_left, Nat.mod_eq_of_lt hv]
  rw [show unflatten (n :: ds) (s * q + v)
      = ((s * q + v) / ds.prod) :: unflatten ds ((s * q + v) % ds.prod) from rfl,
    hq, hdiv, hmod]

/-- swapL preserves length. -/
lemma swapL_length (l : List ℕ) (a : ℕ) : (swapL l a).length = l.length := by
  simp [swapL]

/-- Element access after 2-D transposition. -/
lemma transpose2_get (t : Tensor) {m n i j : ℕ} (hm : t.shape.getD 0 0 = m)
    (hn : t.shape.getD 1 0 = n) (hi : i < m) (hj : j < n) :
    (transpose2 t).get [j, i] = t.get [i, j] := by
  have hm0 : 0 < m := by omega
  unfold transpose2 Tensor.get
  simp only [hm, hn]
  have hflat : flatIndex [n, m] [j, i] = j * m + i := by
    simp [flatIndex]
  rw [hflat]
  have hlt : j * m + i < n * m := by
    calc j * m + i < j * m + m := by omega
    _ = (j + 1) * m := by ring
    _ ≤ n * m := Nat.mul_le_mul_right m hj
  rw [getD_range_map _ hlt]
  have e1 : j * m + i = i + m * j := by ring
  have h1 : (j * m + i) % m = i := by
    rw [e1, Nat.add_mul_mod_self_left, Nat.mod_eq_of_lt hi]
  have h2 : (j * m + i) / m = j := by
    rw [e1, Nat.add_mul_div_left _ _ hm0, Nat.div_eq_of_lt hi, Nat.zero_add]
  rw [h1, h2]

/-- The number of size-r combinations is the binomial coefficient. -/
lemma comb_length (r : ℕ) (l : List α) :
    (comb r l).length = Nat.choose l.length r := by
  induction l generalizing r with
  | nil => cases r <;> simp [comb]
  | cons x xs ih =>
    cases r with
    | zero => simp [comb]
    | succ r => simp [comb, ih, Nat.choose_succ_succ]

/-- Combinations commute with mapping over the elements. -/
lemma comb_map (f : α → β) (r : ℕ) (l : List α) :
    comb r (l.map f) = (comb r l).map (List.map f) := by
  induction l generalizing r with
  | nil => cases r <;> simp [comb]
  | cons x xs ih =>
    cases r with
    | zero => simp [comb]
    | succ r => simp [comb, ih, List.map_map, Function.comp]

/-- Tabulating getD over the positions of a list reproduces the list. -/
lemma range_map_getD (d : α) (l : List α) :
    (List.range l.length).map (fun i => l.getD i d) = l := by
  induction l with
  | nil => simp
  | cons x xs ih =>
    rw [List.length_cons, List.range_succ_eq_map, List.map_cons, List.map_map]
    have hcomp : ((fun i => (x :: xs).getD i d) ∘ Nat.succ) = (fun i => xs.getD i d) :=
      rfl
    rw [hcomp, ih]
    rfl

/-- histogram with r = 0 is the joint bin-count vector. -/
lemma histogramRows_zero (rows : List (List ℤ)) :
    histogramRows rows 0 = .ok (.inl (jointCounts rows)) := by
  simp [histogramRows]

/-- as_data_array with axis None leaves a 2-D array unchanged (the source
compares the None axis with 0, which is false). -/
lemma asDataArrayO_none_rank2 (t : Tensor) (h : t.shape.length = 2) :
    asDataArrayO t none = .ok t := by
  simp [asDataArrayO, h]

/-- check_k on a sequence of natural numbers agrees with check_k on the
scalar product of the sequence: the summed-logarithm bound on a sequence
holds exactly when the log bound holds of the product (both require a
positive product), and the whole-number test is taken on the product in
both cases. -/
lemma check_k_natSeq (l : List ℕ) :
    check_k (some (.seq (l.map (fun n => ((n : ℕ) : ℚ)))))
      = check_k (some (.scalar ((l.map (fun n => ((n : ℕ) : ℚ))).prod))) := by
  set L := l.map (fun n => ((n : ℕ) : ℚ)) with hL
  by_cases hp : ∀ x ∈ L, 0 < x
  · have hiff : ((∀ x ∈ L, 0 < x) ∧ (2 : ℚ) ^ 150 < L.prod)
        ↔ ((2 : ℚ) ^ 150 < L.prod) := ⟨fun h => h.2, fun h => ⟨hp, h⟩⟩
    simp only [check_k]
    rw [if_congr hiff rfl rfl]
  · push_neg at hp
    obtain ⟨x, hxL, hx0⟩ := hp
    have hxnn : 0 ≤ x := by
      rw [hL] at hxL
      obtain ⟨n, _, rfl⟩ := List.mem_map.mp hxL
      positivity
    have hx : x = 0 := le_antisymm hx0 hxnn
    have hprod : L.prod = 0 := List.prod_eq_zero (hx ▸ hxL)
    have hnotbig : ¬((2 : ℚ) ^ 150 < L.prod) := by
      rw [hprod]
      exact not_lt.mpr (by positivity)
    have hnotall : ¬((∀ y ∈ L, 0 < y) ∧ (2 : ℚ) ^ 150 < L.prod) := by
      intro h
      exact absurd hx (ne_of_gt (h.1 x hxL))
    simp only [check_k]
    rw [if_neg hnotall, if_neg hnotbig]

/-- Concrete evaluation: the counts [1, 2, 3] validate. -/
lemma check_pk_123 : check_pk [1, 2, 3] = .ok [1, 2, 3] := by
  have d1 : ((1 : ℚ)).den = 1 := by norm_num
  have d2 : ((2 : ℚ)).den = 1 := by norm_num
  have d3 : ((3 : ℚ)).den = 1 := by norm_num
  have n1 : ((1 : ℚ)).num = 1 := by norm_num
  have n2 : ((2 : ℚ)).num = 2 := by norm_num
  have n3 : ((3 : ℚ)).num = 3 := by norm_num
  simp [check_pk, ratIsInt, d1, d2, d3, n1, n2, n3]

/-- Concrete evaluation: the counts [1, -1, 2] are rejected (negative). -/
lemma check_pk_neg : check_pk [1, -1, 2] = .error .counts := by
  have d1 : ((1 : ℚ)).den = 1 := by norm_num
  have d2 : ((-1 : ℚ)).den = 1 := by norm_num
  have d3 : ((2 : ℚ)).den = 1 := by norm_num
  simp [check_pk, ratIsInt, d1, d2, d3]

/-- Concrete evaluation: the scalar cardinality 3 validates. -/
lemma check_k_scalar3 : check_k (some (.scalar 3)) = .ok (some 3) := by
  have h1 : ¬((2 : ℚ) ^ 150 < 3) := by norm_num
  have hden : ((3 : ℚ)).den = 1 := by norm_num
  simp [check_k, h1, ratIsInt, hden]

/-! ### claims -/

/-- The data array used for claims about mutual_information: 3 samples of
p = 2 variables, as_data_array(ar, 0) gives rows [[0,0,1],[0,1,0]]. -/
def arC1 : Tensor := ⟨[3, 2], [0, 0, 0, 1, 1, 0]⟩

/-- Claim C1: the claim states that mutual_information(ar, ks, r=0) raises
no CardinalityError when ks is a well-formed length-p sequence of
per-variable cardinalities.  On the code the else branch of the length test
raises CardinalityError for every sequence ks, including a well-formed one:
for the 3-samples-by-2-variables array and ks = [2, 2] (length p = 2, the
true per-variable alphabet sizes) the call errors; a wrong-length sequence
errors as the claim says; a scalar ks passes the block and errors inside
the first per-combination from_data call. -/
theorem C1_mutual_information_seq_ks_raises (f : Core) :
    mutual_information f arC1 (some (.seq [2, 2])) (some 0) 0
      = .error .cardinality
    ∧ mutual_information f arC1 (some (.seq [2])) (some 0) 0
      = .error .cardinality
    ∧ mutual_information f arC1 (some (.scalar 4)) (some 0) 0
      = .error .cardinality :=
  ⟨rfl, rfl, rfl⟩

/-- Claim C2: data.py caches the per-variable alphabet sizes behind
`if not self._ks`.  The first access computes and caches the correct
values, but with p >= 2 variables every later access evaluates the truth
value of a multi-element numpy array and raises ValueError instead of
returning the cached value: concretely for the 2-variable rows
[[0,1],[1,0]], and in general for every data array with at least two
rows. -/
theorem C2_ks_cache_second_access_raises :
    ksGet [[0, 1], [1, 0]] none = .ok ([2, 2], some [2, 2])
    ∧ ksGet [[0, 1], [1, 0]] (some [2, 2]) = .error .valueErr
    ∧ ∀ rows : List (List ℤ), 2 ≤ rows.length →
        (ksGet rows none).bind (fun vs => ksGet rows vs.2) = .error .valueErr := by
  refine ⟨by decide, by decide, ?_⟩
  intro rows h
  obtain ⟨r1, r2, rest, rfl⟩ : ∃ r1 r2 rest, rows = r1 :: r2 :: rest := by
    rcases rows with _ | ⟨r1, rest1⟩
    · simp at h
    rcases rest1 with _ | ⟨r2, rest⟩
    · simp at h
    exact ⟨r1, r2, rest, rfl⟩
  rfl

/-- Witness for C2 at the concrete two-variable data array. -/
theorem C2_ks_cache_witness :
    2 ≤ ([[0, 1], [1, 0]] : List (List ℤ)).length
    ∧ (ksGet [[0, 1], [1, 0]] none).bind (fun vs => ksGet [[0, 1], [1, 0]] vs.2)
        = .error .valueErr :=
  ⟨by decide, C2_ks_cache_second_access_raises.2.2 [[0, 1], [1, 0]] (by decide)⟩

set_option maxRecDepth 4000 in
/-- Claim C7: check_k rejects 2^151 (log bound) and 3.5 (not a whole
number) and collapses [2, 3] to 6, as the claim states; but the claim
also says only positive whole numbers are accepted, while check_k accepts
the negative scalar -5 (numpy.log(-5) is NaN, the NaN comparison with the
bound is false, and -5.0 is a whole number), contradicting its own
docstring, which lists negative values as invalid. -/
theorem C7_check_k_eval :
    check_k (some (.scalar ((2 : ℚ) ^ 151))) = .error .cardinality
    ∧ check_k (some (.scalar (7 / 2))) = .error .cardinality
    ∧ check_k (some (.seq [2, 3])) = .ok (some 6)
    ∧ check_k (some (.scalar (-5))) = .ok (some (-5)) := by
  refine ⟨?_, ?_, ?_, ?_⟩
  · have h : (2 : ℚ) ^ 150 < (2 : ℚ) ^ 151 := by
      have he : (2 : ℚ) ^ 151 = 2 ^ 150 * 2 := by ring
      have hpos : (0 : ℚ) < 2 ^ 150 := by positivity
      rw [he]
      linarith
    simp [check_k, h]
  · have h1 : ¬((2 : ℚ) ^ 150 < 7 / 2) := by norm_num
    have hden : ((7 : ℚ) / 2).den = 2 := by norm_num
    simp [check_k, h1, ratIsInt, hden]
  · have hprod : ([2, 3] : List ℚ).prod = 6 := by norm_num
    have h1 : ¬((∀ x ∈ ([2, 3] : List ℚ), 0 < x) ∧ (2 : ℚ) ^ 150 < ([2, 3] : List ℚ).prod) := by
      rw [hprod]
      intro h
      have := h.2
      norm_num at this
    have hden : ((6 : ℚ)).den = 1 := by norm_num
    simp [check_k, h1, ratIsInt, hprod, hden]
    norm_num
  · have h1 : ¬((2 : ℚ) ^ 150 < -5) := by norm_num
    have hden : ((-5 : ℚ)).den = 1 := by norm_num
    simp [check_k, h1, ratIsInt, hden]

/-- Claim C10: check_alpha accepts NaN: the checks reject exactly an absent
value, a value not convertible to float64, and a negative value, and the
IEEE comparison NaN < 0 is false, so NaN is returned unchanged; a NaN
estimate surfaces only through the post-computation NaN guard of the entry
points (NumericError). -/
theorem C10_check_alpha_nan :
    check_alpha (.val .nan) = .ok .nan
    ∧ (∀ a, (∃ e, check_alpha a = .error e) ↔
        a = .absent ∨ a = .nonnum ∨ ∃ q, a = .val (.num q) ∧ q < 0)
    ∧ nanGuard .nan = .error .numeric := by
  refine ⟨rfl, ?_, rfl⟩
  intro a
  cases a with
  | absent => simp [check_alpha]
  | nonnum => simp [check_alpha]
  | val v =>
    cases v with
    | nan => simp [check_alpha, nfLtZero]
    | num q =>
      by_cases hq : q < 0
      · simp [check_alpha, nfLtZero, hq]
      · simp [check_alpha, nfLtZero, hq]

/-- Witness for C10: a negative concentration parameter is rejected, NaN is
not. -/
theorem C10_check_alpha_witness :
    (∃ e, check_alpha (.val (.num (-1))) = .error e)
    ∧ check_alpha (.val .nan) = .ok .nan :=
  ⟨(C10_check_alpha_nan.2.1 (.val (.num (-1)))).mpr
      (Or.inr (Or.inr ⟨-1, rfl, by norm_num⟩)),
    C10_check_alpha_nan.1⟩

/-- A probe estimator core that reports whether it received a cardinality:
it returns 0 when k is absent and 1 otherwise. -/
def probeCore : Core := fun _ k =>
  match k with
  | none => .inl 0
  | some _ => .inl 1

/-- Claim C4 (amended): fit with k omitted validates pk and invokes the
concrete estimator core with k = None, not with the defaulted value
len(pk): check_k passes None through unchanged and fit performs no
defaulting of its own (the default to the number of bins is the concrete
estimator's responsibility).  The updated instance (with the stored
result) is returned. -/
theorem C4_fit_passes_none (core : Core) (st : EstState) (pk : List ℚ)
    (pk' : List ℤ) (h : check_pk pk = .ok pk') :
    fitSt core st pk none = (storeRes st (core pk' none), none) := by
  simp [fitSt, h, check_k]

/-- Witness for C4 at pk = [1, 2, 3]: the probe core observes an absent
cardinality. -/
theorem C4_fit_passes_none_witness :
    fitSt probeCore ⟨none, none⟩ [1, 2, 3] none
      = (⟨some 0, none⟩, none) := by
  rw [C4_fit_passes_none probeCore ⟨none, none⟩ [1, 2, 3] [1, 2, 3] check_pk_123]
  rfl

/-- Counterexample for C4 as stated: were fit defaulting the omitted k to
len(pk) = 3 before invoking the core, these two calls would produce the
same stored estimate; the probe core distinguishes them, so the core
receives an absent value, not 3. -/
theorem C4_fit_default_counterexample :
    fitSt probeCore ⟨none, none⟩ [1, 2, 3] none
      ≠ fitSt probeCore ⟨none, none⟩ [1, 2, 3] (some (.scalar 3)) := by
  have hL : fitSt probeCore ⟨none, none⟩ [1, 2, 3] none
      = (⟨some 0, none⟩, none) := by
    simp [fitSt, check_pk_123, check_k, storeRes, probeCore]
  have hR : fitSt probeCore ⟨none, none⟩ [1, 2, 3] (some (.scalar 3))
      = (⟨some 1, none⟩, none) := by
    simp [fitSt, check_pk_123, check_k_scalar3, storeRes, probeCore]
  rw [hL, hR]
  intro h
  have h0 : (some (0 : ℚ)) = some 1 := congrArg (fun x => x.1.estimate_) h
  have h1 : (0 : ℚ) = 1 := Option.some.inj h0
  norm_num at h1

/-- Claim C9: validation is atomic and precedes computation, for both the
single-distribution and the multi-distribution fit: whenever counts or
cardinality validation fails, fit surfaces exactly that error
(CountsError from check_pk, CardinalityError from check_k), the stored
estimate and uncertainty are unchanged, and the result does not depend on
the concrete estimator core (the core is never invoked). -/
theorem C9_validation_atomic (c₁ c₂ : Core) (cm : MultiCore) (st : EstState)
    (pk : List ℚ) (mpk : MultiPk) (k : Option KInput) :
    (check_pk pk = .error .counts →
      fitSt c₁ st pk k = (st, some .counts)
        ∧ fitSt c₁ st pk k = fitSt c₂ st pk k)
    ∧ (∀ pk', check_pk pk = .ok pk' → check_k k = .error .cardinality →
        fitSt c₁ st pk k = (st, some .cardinality)
          ∧ fitSt c₁ st pk k = fitSt c₂ st pk k)
    ∧ (check_pk_multi mpk = .error .counts → fitStM cm st mpk k = (st, some .counts))
    ∧ (∀ e, check_pk pk = .error e → e = .counts)
    ∧ (∀ e, check_k k = .error e → e = .cardinality) := by
  refine ⟨?_, ?_, ?_, ?_, ?_⟩
  · intro h
    exact ⟨by simp [fitSt, h], by simp [fitSt, h]⟩
  · intro pk' h1 h2
    exact ⟨by simp [fitSt, h1, h2], by simp [fitSt, h1, h2]⟩
  · intro h
    simp [fitStM, h]
  · intro e h
    unfold check_pk at h
    split_ifs at h <;> simp_all
  · intro e h
    match k with
    | none => simp [check_k] at h
    | some (.scalar q) =>
      simp only [check_k] at h
      split_ifs at h <;> simp_all
    | some (.seq l) =>
      simp only [check_k] at h
      split_ifs at h <;> simp_all

/-- Witness for C9: with negative counts, fit of any core reports
CountsError and preserves the instance state. -/
theorem C9_validation_atomic_witness :
    check_pk [1, -1, 2] = .error .counts
    ∧ fitSt probeCore ⟨none, none⟩ [1, -1, 2] none = (⟨none, none⟩, some .counts) :=
  ⟨check_pk_neg,
    ((C9_validation_atomic probeCore probeCore (fun _ _ => .inl 0) ⟨none, none⟩
      [1, -1, 2] (.oneD []) none).1 check_pk_neg).1⟩

/-- Case normal form of as_data_array on an integer axis. -/
lemma as_data_array_cases (t : Tensor) (a : ℤ) :
    as_data_array t a =
      if t.shape.length = 1 then .ok ⟨[1, t.shape.headD 0], t.data⟩
      else if t.shape.length = 2 then
        (if a = 0 then .ok (transpose2 t) else .ok t)
      else if 2 < t.shape.length then
        (if a = 0 then .ok (transpose2 (reshapeRow t))
         else if -(t.shape.length : ℤ) ≤ a ∧ a < (t.shape.length : ℤ) then
           .ok (transpose2 (reshapeRow (swapaxes t (normAxis a t.shape.length))))
         else .error .axisErr)
      else .ok t := by
  simp only [as_data_array, asDataArrayO, Option.some.injEq]

/-- Claim C6 (amended): as_data_array raises AxisError exactly for inputs
of rank greater than 2 with a nonzero sample axis that numpy.swapaxes
rejects as out of bounds; for rank-1 and rank-2 inputs the axis argument is
never validated (a rank-1 input ignores it entirely and a rank-2 input is
only compared against 0), so no AxisError is possible there, and AxisError
is the only error as_data_array raises on an integer axis. -/
theorem C6_axis_error_characterisation (t : Tensor) (a : ℤ) :
    (as_data_array t a = .error .axisErr ↔
      2 < t.shape.length ∧ a ≠ 0
        ∧ ¬(-(t.shape.length : ℤ) ≤ a ∧ a < (t.shape.length : ℤ)))
    ∧ (∀ e, as_data_array t a = .error e → e = .axisErr) := by
  rw [as_data_array_cases]
  constructor
  · constructor
    · intro h
      split_ifs at h with h1 h2 h3 h4 h5 <;> simp_all
    · rintro ⟨h3, ha, hb⟩
      have h1 : ¬(t.shape.length = 1) := by omega
      have h2 : ¬(t.shape.length = 2) := by omega
      simp [h1, h2, h3, ha, hb]
  · intro e h
    split_ifs at h <;> simp_all

/-- Counterexample for C6 as stated: an axis that cannot be relocated to
position 0 raises nothing on rank-1 and rank-2 inputs; the calls return
normally. -/
theorem C6_counterexample :
    as_data_array ⟨[3], [1, 2, 3]⟩ 7 = .ok ⟨[1, 3], [1, 2, 3]⟩
    ∧ as_data_array ⟨[2, 2], [1, 2, 3, 4]⟩ 5 = .ok ⟨[2, 2], [1, 2, 3, 4]⟩ :=
  ⟨rfl, rfl⟩

/-- Witness for C6 on a rank-3 input with an out-of-bounds axis. -/
theorem C6_axis_error_witness :
    as_data_array ⟨[2, 2, 2], [0, 0, 0, 0, 0, 0, 0, 0]⟩ 5 = .error .axisErr :=
  (C6_axis_error_characterisation ⟨[2, 2, 2], [0, 0, 0, 0, 0, 0, 0, 0]⟩ 5).1.mpr
    ⟨by decide, by decide, by decide⟩

/-- Claim C8: histogram over a p-variable data array with 0 < r <= p
yields exactly C(p, r) bin-count vectors, one per size-r combination of
variables, taken in the canonical order of index combinations (for p = 3,
r = 2 the index pairs (0,1),(0,2),(1,2)); r > p raises HistogramError. -/
theorem C8_histogram_combinations (rows : List (List ℤ)) (r : ℕ) :
    (0 < r → r ≤ rows.length →
      histogramRows rows r = .ok (.inr ((comb r rows).map jointCounts))
      ∧ ((comb r rows).map jointCounts).length = Nat.choose rows.length r
      ∧ comb r rows = (comb r (List.range rows.length)).map
          (fun I => I.map (fun i => rows.getD i [])))
    ∧ (rows.length < r → histogramRows rows r = .error .histErr)
    ∧ comb 2 (List.range 3) = [[0, 1], [0, 2], [1, 2]] := by
  refine ⟨?_, ?_, by decide⟩
  · intro hr hrp
    refine ⟨?_, ?_, ?_⟩
    · have h1 : ¬(r > rows.length) := by omega
      have h2 : ¬(r = 0) := by omega
      simp [histogramRows, h1, h2]
    · rw [List.length_map, comb_length]
    · conv_lhs => rw [show rows = (List.range rows.length).map
        (fun i => rows.getD i []) from (range_map_getD [] rows).symm]
      rw [comb_map]
  · intro h
    simp [histogramRows, h]

/-- Witness for C8: three binary variables, r = 2: exactly C(3,2) = 3
count vectors in canonical pair order. -/
theorem C8_histogram_combinations_witness :
    0 < 2 ∧ 2 ≤ ([[0, 1], [1, 0], [1, 1]] : List (List ℤ)).length
    ∧ histogramRows [[0, 1], [1, 0], [1, 1]] 2
        = .ok (.inr [[1, 1], [1, 1], [1, 1]])
    ∧ Nat.choose 3 2 = 3 := by
  have h := (C8_histogram_combinations [[0, 1], [1, 0], [1, 1]] 2).1
    (by decide) (by decide)
  exact ⟨by decide, by decide, h.1.trans (by decide), by decide⟩

/-- Concrete evaluation: the counts [1, 1, 1] validate. -/
lemma check_pk_111 : check_pk [1, 1, 1] = .ok [1, 1, 1] := by
  have d1 : ((1 : ℚ)).den = 1 := by norm_num
  have n1 : ((1 : ℚ)).num = 1 := by norm_num
  simp [check_pk, ratIsInt, d1, n1]

/-- Concrete evaluation: the scalar cardinality 4 validates. -/
lemma check_k_scalar4 : check_k (some (.scalar 4)) = .ok (some 4) := by
  have h1 : ¬((2 : ℚ) ^ 150 < 4) := by norm_num
  have hden : ((4 : ℚ)).den = 1 := by norm_num
  simp [check_k, h1, ratIsInt, hden]

/-- Rewriting the validated cardinality rewrites the whole estimator
call. -/
lemma estimatorCall_congr_k (f : Core) (pk : List ℚ) (k₁ k₂ : Option KInput)
    (h : check_k k₁ = check_k k₂) :
    estimatorCall f pk k₁ = estimatorCall f pk k₂ := by
  unfold estimatorCall
  rw [h]

/-- Bind on a successful Except reduces. -/
lemma ok_bind {α β : Type} (x : α) (f : α → Except Err β) :
    (Except.ok x >>= f) = f x := rfl

/-- Binding the Sum.inl wrapper is mapping it. -/
lemma except_bind_inl (X : Except Err ℚ) :
    (X.bind fun est => Except.ok (Sum.inl est) : Except Err (ℚ ⊕ List ℚ))
      = X.map Sum.inl := by
  cases X <;> rfl

/-- from_data with default cardinality on a rank-2 input reduces to a
single estimator call on the joint counts with the scalar product of the
per-variable observed alphabet sizes: the default ks is the per-variable
sequence, and check_k collapses a sequence of naturals exactly as it
validates its scalar product (lemma check_k_natSeq). -/
lemma fromData_default (f : Core) (t : Tensor) (h : t.shape.length = 2) :
    from_data f t none (some 0) 0 =
      (entropyCall f ((jointCounts (toMatrix (transpose2 t))).map (fun z => (z : ℚ)))
        (some (.scalar (perVarKs (toMatrix (transpose2 t))).prod))).map Sum.inl := by
  have hA : asDataArrayO t (some 0) = .ok (transpose2 t) := by
    simp [asDataArrayO, h]
  have hstep : from_data f t none (some 0) 0
      = fromDataRows f (toMatrix (transpose2 t)) none 0 := by
    unfold from_data
    rw [hA]
    rfl
  rw [hstep]
  set rows := toMatrix (transpose2 t) with hrows
  have hred : fromDataRows f rows none 0
      = (estimatorCall f ((jointCounts rows).map (fun z => (z : ℚ)))
          (some (.seq (perVarKs rows)))).bind (fun est => Except.ok (Sum.inl est)) := rfl
  rw [hred]
  have hpvk : perVarKs rows
      = (rows.map (fun v => v.dedup.length)).map (fun n => ((n : ℕ) : ℚ)) := by
    simp [perVarKs, List.map_map]
  have hck : check_k (some (.seq (perVarKs rows)))
      = check_k (some (.scalar (perVarKs rows).prod)) := by
    rw [hpvk]
    exact check_k_natSeq (rows.map (fun v => v.dedup.length))
  rw [estimatorCall_congr_k f _ _ _ hck, except_bind_inl]
  rfl

/-- The data array for the C3 round-trip claim: 3 samples of 2 variables,
joint values (0,0), (0,1), (1,0). -/
def arC3 : Tensor := ⟨[3, 2], [0, 0, 0, 1, 1, 0]⟩

/-- Claim C3 (amended): from_data(ar) with default cardinality equals
entropy(histogram(ar), k = K) where K is the product of the per-variable
observed alphabet sizes; the claim as stated (k = number of distinct joint
values) coincides with this exactly when the product equals the joint
support size. -/
theorem C3_from_data_default_k (f : Core) (t : Tensor) (h : t.shape.length = 2) :
    histogram t 0 0 = .ok (.inl (jointCounts (toMatrix (transpose2 t))))
    ∧ from_data f t none (some 0) 0 =
        (entropyCall f ((jointCounts (toMatrix (transpose2 t))).map (fun z => (z : ℚ)))
          (some (.scalar (perVarKs (toMatrix (transpose2 t))).prod))).map Sum.inl := by
  constructor
  · have hA : as_data_array t 0 = .ok (transpose2 t) := by
      simp [as_data_array, asDataArrayO, h]
    simp [histogram, hA, ok_bind, histogramRows_zero]
  · exact fromData_default f t h

/-- Witness for C3 at the concrete 3-by-2 data array. -/
theorem C3_from_data_default_k_witness :
    arC3.shape.length = 2
    ∧ from_data nsbEstimate arC3 none (some 0) 0 =
        (entropyCall nsbEstimate
          ((jointCounts (toMatrix (transpose2 arC3))).map (fun z => (z : ℚ)))
          (some (.scalar (perVarKs (toMatrix (transpose2 arC3))).prod))).map Sum.inl :=
  ⟨by decide, (C3_from_data_default_k nsbEstimate arC3 (by decide)).2⟩

/-- The spec-modelled core evaluated at counts [1, 1, 1]. -/
lemma nsbEstimate_111 (k : ℚ) :
    resEstimate (nsbEstimate [1, 1, 1] (some k)) = 2 / 3 + (k - 3) / 4 := by
  simp [nsbEstimate, resEstimate, surrogateH]
  norm_num

/-- Counterexample for C3 as stated: for the 3-by-2 array arC3 the joint
histogram has m = 3 bins, but from_data passes k = 2 * 2 = 4 (the product
of per-variable alphabet sizes) to the estimator, so with a cardinality-
sensitive core (as the spec describes the Bayesian estimator) the two
sides differ: 11/12 versus 2/3. -/
theorem C3_round_trip_counterexample :
    histogram arC3 0 0 = .ok (.inl [1, 1, 1])
    ∧ ([1, 1, 1] : List ℤ).length = 3
    ∧ from_data nsbEstimate arC3 none (some 0) 0 = .ok (.inl (11 / 12 : ℚ))
    ∧ entropyCall nsbEstimate [1, 1, 1] (some (.scalar 3)) = .ok (2 / 3 : ℚ)
    ∧ (11 / 12 : ℚ) ≠ 2 / 3 := by
  have hrows : toMatrix (transpose2 arC3) = [[0, 0, 1], [0, 1, 0]] := by decide
  have hjc : jointCounts (toMatrix (transpose2 arC3)) = [1, 1, 1] := by decide
  have hmap : (([1, 1, 1] : List ℤ).map (fun z => (z : ℚ))) = [1, 1, 1] := by
    simp
  have hpvk : perVarKs (toMatrix (transpose2 arC3)) = [((2 : ℕ) : ℚ), ((2 : ℕ) : ℚ)] := by
    rw [hrows]
    have hd1 : ([0, 0, 1] : List ℤ).dedup.length = 2 := by decide
    have hd2 : ([0, 1, 0] : List ℤ).dedup.length = 2 := by decide
    simp [perVarKs, hd1, hd2]
  have hprod : (perVarKs (toMatrix (transpose2 arC3))).prod = 4 := by
    rw [hpvk]
    push_cast
    norm_num
  refine ⟨?_, by decide, ?_, ?_, by norm_num⟩
  · have hA : as_data_array arC3 0 = .ok (transpose2 arC3) := by decide
    simp [histogram, hA, ok_bind, histogramRows_zero, hjc]
  · rw [fromData_default nsbEstimate arC3 (by decide), hjc, hmap, hprod]
    have : entropyCall nsbEstimate [1, 1, 1] (some (.scalar 4)) = .ok (11 / 12 : ℚ) := by
      simp [entropyCall, estimatorCall, check_pk_111, check_k_scalar4, ok_bind]
      rw [nsbEstimate_111]
      norm_num
    rw [this]
    rfl
  · simp [entropyCall, estimatorCall, check_pk_111, check_k_scalar3, ok_bind]
    rw [nsbEstimate_111]
    norm_num

/-- Element access through reshape(n, -1) followed by transposition. -/
lemma reshape_transpose_get (u : Tensor) {h0 : ℕ} {tl : List ℕ}
    (hu : u.shape = h0 :: tl) {v s : ℕ} (hv : v < tl.prod) (hs : s < h0) :
    (transpose2 (reshapeRow u)).get [v, s] = u.data.getD (s * tl.prod + v) 0 := by
  have hm : (reshapeRow u).shape.getD 0 0 = h0 := by simp [reshapeRow, hu]
  have hn : (reshapeRow u).shape.getD 1 0 = tl.prod := by simp [reshapeRow, hu]
  rw [transpose2_get (reshapeRow u) hm hn hs hv]
  unfold Tensor.get reshapeRow
  simp [flatIndex, hu]

/-- Element access into the materialised data of swapaxes. -/
lemma swapaxes_getD (t : Tensor) (A : ℕ) {k : ℕ}
    (hk : k < (swapL t.shape A).prod) :
    (swapaxes t A).data.getD k 0
      = t.get (swapL (unflatten (swapL t.shape A) k) A) := by
  unfold swapaxes
  exact getD_range_map _ hk

/-- The composite swapaxes-reshape-transpose of as_data_array on rank-N
input sends the element at (flattened variable index v, sample s) to the
original element whose multi-index places s at the sample axis and
unflattens v over the remaining axes. -/
lemma rankN_get (t : Tensor) (A : ℕ) (hne : t.shape ≠ []) {v s : ℕ}
    (hv : v < (swapL t.shape A).tail.prod)
    (hs : s < (swapL t.shape A).headD 0) :
    (transpose2 (reshapeRow (swapaxes t A))).get [v, s]
      = t.get (swapL (s :: unflatten (swapL t.shape A).tail v) A) := by
  have hne' : swapL t.shape A ≠ [] := by
    intro h
    apply hne
    have hl := swapL_length t.shape A
    rw [h] at hl
    exact List.eq_nil_of_length_eq_zero hl.symm
  obtain ⟨h0, tl, hcons⟩ := List.exists_cons_of_ne_nil hne'
  have htail : (swapL t.shape A).tail = tl := by rw [hcons]; rfl
  have hhead : (swapL t.shape A).headD 0 = h0 := by rw [hcons]; rfl
  rw [htail] at hv
  rw [hhead] at hs
  have hu : (swapaxes t A).shape = h0 :: tl := by
    rw [show (swapaxes t A).shape = swapL t.shape A from rfl, hcons]
  rw [reshape_transpose_get (swapaxes t A) hu hv hs]
  have hq0 : 0 < tl.prod := by omega
  have hk : s * tl.prod + v < (swapL t.shape A).prod := by
    rw [hcons, List.prod_cons]
    calc s * tl.prod + v < s * tl.prod + tl.prod := by omega
    _ = (s + 1) * tl.prod := by ring
    _ ≤ h0 * tl.prod := Nat.mul_le_mul_right _ (Nat.succ_le_of_lt hs)
  rw [swapaxes_getD t A hk, hcons,
    unflatten_decomp h0 tl.prod v s tl rfl hv]
  rfl

/-- Claim C5 (amended): as_data_array produces a 2-D variables-by-samples
layout for every rank: a rank-1 input of n elements becomes 1-by-n with
the same data (for any axis); a rank-2 input is transposed exactly when
the sample axis is axis 0 (elementwise, result[j,i] = input[i,j]) and is
returned unchanged for any other axis; a rank-N input (N > 2) with a
valid nonzero sample axis has that axis swapped to the front, the
remaining axes flattened in C order into the variable dimension, and is
then transposed, so that the element at (variable v, sample s) is the
input element whose multi-index puts s at the chosen axis and unflattens
v over the remaining axes. -/
theorem C5_as_data_array_layout :
    (∀ (n : ℕ) (d : List ℤ) (a : ℤ),
      as_data_array ⟨[n], d⟩ a = .ok ⟨[1, n], d⟩)
    ∧ (∀ (m n : ℕ) (d : List ℤ),
        as_data_array ⟨[m, n], d⟩ 0 = .ok (transpose2 ⟨[m, n], d⟩)
        ∧ (∀ i j, i < m → j < n →
            (transpose2 ⟨[m, n], d⟩).get [j, i] = Tensor.get ⟨[m, n], d⟩ [i, j])
        ∧ (∀ a : ℤ, a ≠ 0 → as_data_array ⟨[m, n], d⟩ a = .ok ⟨[m, n], d⟩))
    ∧ (∀ (t : Tensor) (a : ℤ), 2 < t.shape.length →
        -(t.shape.length : ℤ) ≤ a → a < (t.shape.length : ℤ) → a ≠ 0 →
        as_data_array t a
          = .ok (transpose2 (reshapeRow (swapaxes t (normAxis a t.shape.length))))
        ∧ ∀ v s, v < (swapL t.shape (normAxis a t.shape.length)).tail.prod →
            s < (swapL t.shape (normAxis a t.shape.length)).headD 0 →
            (transpose2 (reshapeRow (swapaxes t (normAxis a t.shape.length)))).get [v, s]
              = t.get (swapL (s :: unflatten
                  (swapL t.shape (normAxis a t.shape.length)).tail v)
                  (normAxis a t.shape.length))) := by
  refine ⟨?_, ?_, ?_⟩
  · intro n d a
    rfl
  · intro m n d
    refine ⟨rfl, ?_, ?_⟩
    · intro i j hi hj
      exact transpose2_get _ rfl rfl hi hj
    · intro a ha
      simp [as_data_array_cases, ha]
  · intro t a h3 hb1 hb2 ha
    have h1 : ¬(t.shape.length = 1) := by omega
    have h2 : ¬(t.shape.length = 2) := by omega
    constructor
    · rw [as_data_array_cases]
      simp [h1, h2, h3, ha, hb1, hb2]
    · intro v s hv hs
      have hne : t.shape ≠ [] := by
        intro h
        rw [h] at h3
        simp at h3
    
      exact rankN_get t (normAxis a t.shape.length) hne hv hs

/-- The rank-3 tensor used as C5 witness data: shape 2 x 2 x 2 with
entries 0..7 in C order. -/
def tC5 : Tensor := ⟨[2, 2, 2], [0, 1, 2, 3, 4, 5, 6, 7]⟩

/-- Witness for C5 on a rank-3 input with sample axis 1: the result holds
elementwise and evaluates to the concrete entry 6. -/
theorem C5_as_data_array_layout_witness :
    as_data_array tC5 1 = .ok (transpose2 (reshapeRow (swapaxes tC5 1)))
    ∧ (transpose2 (reshapeRow (swapaxes tC5 1))).get [2, 1]
        = tC5.get (swapL (1 :: unflatten [2, 2] 2) 1)
    ∧ tC5.get (swapL (1 :: unflatten [2, 2] 2) 1) = 6 := by
  have h := C5_as_data_array_layout.2.2 tC5 1 (by decide) (by decide)
    (by decide) (by decide)
  have h2 := h.2 2 1 (by decide) (by decide)
  exact ⟨h.1, h2, by decide⟩

/-- Counterexample for C5 as stated: the claim says a rank-2 input is
transposed unless the sample axis is already axis 0, so an axis-0 rank-2
input would come back unchanged; the code transposes exactly then. -/
theorem C5_rank2_counterexample :
    as_data_array ⟨[2, 2], [1, 2, 3, 4]⟩ 0 = .ok ⟨[2, 2], [1, 3, 2, 4]⟩
    ∧ (⟨[2, 2], [1, 3, 2, 4]⟩ : Tensor) ≠ ⟨[2, 2], [1, 2, 3, 4]⟩ := by
  exact ⟨rfl, by decide⟩

end Ndd
